import Mathlib

/-!
Verification of `aoebskybot.py`: a one-shot pipeline that fetches per-player
match status from an HTTP API, diffs against a persisted JSON state file, saves
the new state, and posts changed statuses to Bluesky.

The Python program is shallowly embedded below.  External effects (HTTP
responses, the state file, environment credentials, posting-API outcomes) are
parameters of the embedded functions; Python exceptions are modelled with
`Except PyExn`, and Python/JSON values with the inductive `PyVal`.
-/

set_option autoImplicit false

namespace Aoebskybot

/-- Python values that can result from `json.load` / `response.json()`,
plus `None` and booleans (JSON `null`/`true`/`false`).  JSON object keys are
strings; insertion order is kept, as Python dicts do. -/
inductive PyVal where
  | none
  | bool (b : Bool)
  | int (n : Int)
  | str (s : String)
  | list (xs : List PyVal)
  | dict (xs : List (String × PyVal))

/-- The Python exceptions the embedded code can raise. -/
inductive PyExn where
  | keyError (k : String)
  | indexError
  | typeError
  | attributeError
  | valueError (msg : String)
  deriving Repr, DecidableEq

/-- Python truthiness (`if x:`): `None`/`False`/`0`/`""`/`[]`/`{}` are falsy. -/
def pyTruthy : PyVal → Bool
  | .none => false
  | .bool b => b
  | .int n => n != 0
  | .str s => s != ""
  | .list xs => !xs.isEmpty
  | .dict xs => !xs.isEmpty

/-- First-match lookup in an association list (Python dict lookup; keys are
unique in a real dict, so first match is the match). -/
def pyDictGet? {α : Type} : List (String × α) → String → Option α
  | [], _ => Option.none
  | (k', v') :: rest, k => if k' = k then Option.some v' else pyDictGet? rest k

/-- Python dict assignment `d[k] = v`: replaces the value in place when the key
exists, otherwise appends (insertion order preserved). -/
def pyDictInsert {α : Type} : List (String × α) → String → α → List (String × α)
  | [], k, v => [(k, v)]
  | (k', v') :: rest, k, v =>
      if k' = k then (k, v) :: rest else (k', v') :: pyDictInsert rest k v

/-- `data['matches']`-style subscript with a string key: `KeyError` when the
key is absent, `TypeError` when the value is not a dict. -/
def pySubscriptStr (v : PyVal) (k : String) : Except PyExn PyVal :=
  match v with
  | .dict xs =>
      match pyDictGet? xs k with
      | Option.some w => .ok w
      | Option.none => .error (.keyError k)
  | _ => .error .typeError

/-- `matches[0]`: head of a list (`IndexError` when empty), first character of
a string, `KeyError` on a JSON object (its keys are strings, not `0`),
`TypeError` otherwise. -/
def pyIndexZero (v : PyVal) : Except PyExn PyVal :=
  match v with
  | .list [] => .error .indexError
  | .list (x :: _) => .ok x
  | .str s =>
      match s.toList with
      | [] => .error .indexError
      | c :: _ => .ok (.str (String.mk [c]))
  | .dict _ => .error (.keyError "0")
  | _ => .error .typeError

/-- `last_match.get('finished')`: dict `.get` returns the value or Python
`None`; calling `.get` on a non-dict raises `AttributeError`. -/
def pyDictGetMethod (v : PyVal) (k : String) : Except PyExn PyVal :=
  match v with
  | .dict xs =>
      match pyDictGet? xs k with
      | Option.some w => .ok w
      | Option.none => .ok .none
  | _ => .error .attributeError

/-- Accessing `.replace` on a value: only strings have it; a truthy non-string
`finished` raises `AttributeError`. -/
def pyAsStr (v : PyVal) : Except PyExn String :=
  match v with
  | .str s => .ok s
  | _ => .error .attributeError

/-- `finished_raw.replace('Z', '+00:00')`: every occurrence of `Z` is replaced
by `+00:00` (Python `str.replace` replaces all occurrences). -/
def replaceZchars : List Char → List Char
  | [] => []
  | c :: rest =>
      if c = 'Z' then '+' :: '0' :: '0' :: ':' :: '0' :: '0' :: replaceZchars rest
      else c :: replaceZchars rest

def replaceZ (s : String) : String := String.mk (replaceZchars s.toList)

/-- Python `str.strip()` with no argument: removes leading and trailing
whitespace. -/
def pyStrip (s : String) : String :=
  String.mk (((s.toList.reverse.dropWhile Char.isWhitespace).reverse).dropWhile
      Char.isWhitespace)

/-- `f"{player_name} {outcome} {finished_info}".strip()` — the status string
built at line 106 of the source. -/
def statusMsg (player_name outcome finished_info : String) : String :=
  pyStrip (player_name ++ " " ++ outcome ++ " " ++ finished_info)

/-! ### Datetime model

`datetime.fromisoformat` (on the `Z`-replaced string), `.replace(tzinfo=utc)`,
`.astimezone(BUENOS_AIRES_TZ)` and `.strftime("%H:%M (%Y-%m-%d)")` from
source lines 85–87.  `America/Argentina/Buenos_Aires` has been a constant
UTC−3 with no DST since 2009, so the zone is modelled as the fixed offset
−180 minutes. -/

/-- A parsed Python `datetime`: wall-clock fields plus an optional UTC offset
in minutes (`None` for a naive datetime). -/
structure PyDatetime where
  year : Nat
  month : Nat
  day : Nat
  hour : Nat
  minute : Nat
  second : Nat
  utcoffsetMinutes : Option Int
  deriving Repr, DecidableEq

def isLeap (y : Nat) : Bool :=
  y % 4 = 0 && (y % 100 != 0 || y % 400 = 0)

def daysInMonth (y m : Nat) : Nat :=
  if m = 2 then (if isLeap y then 29 else 28)
  else if m = 4 ∨ m = 6 ∨ m = 9 ∨ m = 11 then 30
  else 31

/-- Parse exactly four decimal digits. -/
def parse4 : List Char → Option (Nat × List Char)
  | a :: b :: c :: d :: rest =>
      if a.isDigit ∧ b.isDigit ∧ c.isDigit ∧ d.isDigit then
        Option.some ((a.toNat - 48) * 1000 + (b.toNat - 48) * 100 +
          (c.toNat - 48) * 10 + (d.toNat - 48), rest)
      else Option.none
  | _ => Option.none

/-- Parse exactly two decimal digits. -/
def parse2 : List Char → Option (Nat × List Char)
  | a :: b :: rest =>
      if a.isDigit ∧ b.isDigit then
        Option.some ((a.toNat - 48) * 10 + (b.toNat - 48), rest)
      else Option.none
  | _ => Option.none

def expectChar (c : Char) : List Char → Option (List Char)
  | [] => Option.none
  | x :: rest => if x = c then Option.some rest else Option.none

/-- A `±HH:MM` UTC offset, in minutes (without the sign). -/
def parseOffsetTail (cs : List Char) : Option Int := do
  let (oh, r1) ← parse2 cs
  let r2 ← expectChar ':' r1
  let (om, r3) ← parse2 r2
  if r3 = [] ∧ oh < 24 ∧ om < 60 then Option.some ((oh : Int) * 60 + om)
  else Option.none

/-- `datetime.fromisoformat` on the subset of inputs the program feeds it:
`YYYY-MM-DD`, optionally a one-character separator and `HH:MM[:SS]`,
optionally a `±HH:MM` offset.  Anything else is a `ValueError`. -/
def parseIsoChars (cs : List Char) : Option PyDatetime := do
  let (y, r1) ← parse4 cs
  let r2 ← expectChar '-' r1
  let (mo, r3) ← parse2 r2
  let r4 ← expectChar '-' r3
  let (d, r5) ← parse2 r4
  if 1 ≤ y ∧ y ≤ 9999 ∧ 1 ≤ mo ∧ mo ≤ 12 ∧ 1 ≤ d ∧ d ≤ daysInMonth y mo then
    match r5 with
    | [] => Option.some ⟨y, mo, d, 0, 0, 0, Option.none⟩
    | _sep :: r6 => do
        let (hh, r7) ← parse2 r6
        let r8 ← expectChar ':' r7
        let (mi, r9) ← parse2 r8
        let (ss, r10) ← match r9 with
          | ':' :: r => parse2 r
          | r => Option.some (0, r)
        if hh < 24 ∧ mi < 60 ∧ ss < 60 then
          match r10 with
          | [] => Option.some ⟨y, mo, d, hh, mi, ss, Option.none⟩
          | '+' :: r11 => do
              let off ← parseOffsetTail r11
              Option.some ⟨y, mo, d, hh, mi, ss, Option.some off⟩
          | '-' :: r11 => do
              let off ← parseOffsetTail r11
              Option.some ⟨y, mo, d, hh, mi, ss, Option.some (-off)⟩
          | _ => Option.none
        else Option.none
  else Option.none

def fromisoformat (s : String) : Except PyExn PyDatetime :=
  match parseIsoChars s.toList with
  | Option.some dt => .ok dt
  | Option.none => .error (.valueError ("Invalid isoformat string: " ++ s))

/-- `.replace(tzinfo=pytz.utc)`: the wall-clock fields are kept and the offset
is forced to UTC, discarding any offset that was parsed. -/
def replaceTzinfoUTC (dt : PyDatetime) : PyDatetime :=
  { dt with utcoffsetMinutes := Option.some 0 }

def BUENOS_AIRES_OFFSET_MINUTES : Int := -180

/-- Days since 1970-01-01 of a civil date (proleptic Gregorian). -/
def daysFromCivil (y m d : Int) : Int :=
  let y' := if m ≤ 2 then y - 1 else y
  let era := y'.fdiv 400
  let yoe := y' - era * 400
  let mp := if m > 2 then m - 3 else m + 9
  let doy := (153 * mp + 2).fdiv 5 + d - 1
  let doe := yoe * 365 + yoe.fdiv 4 - yoe.fdiv 100 + doy
  era * 146097 + doe - 719468

/-- Civil date (year, month, day) of a day number since 1970-01-01. -/
def civilFromDays (z : Int) : Int × Int × Int :=
  let z' := z + 719468
  let era := z'.fdiv 146097
  let doe := z' - era * 146097
  let yoe := (doe - doe.fdiv 1460 + doe.fdiv 36524 - doe.fdiv 146096).fdiv 365
  let y := yoe + era * 400
  let doy := doe - (365 * yoe + yoe.fdiv 4 - yoe.fdiv 100)
  let mp := (5 * doy + 2).fdiv 153
  let d := doy - (153 * mp + 2).fdiv 5 + 1
  let m := if mp < 10 then mp + 3 else mp - 9
  (if m ≤ 2 then y + 1 else y, m, d)

/-- `.astimezone(BUENOS_AIRES_TZ)`: convert an aware datetime to the fixed
−3 h zone (wall time = UTC instant − 180 minutes), with date rollover. -/
def astimezoneBA (dt : PyDatetime) : PyDatetime :=
  let off := dt.utcoffsetMinutes.getD 0
  let totalSec : Int := daysFromCivil dt.year dt.month dt.day * 86400 +
    (dt.hour : Int) * 3600 + (dt.minute : Int) * 60 + (dt.second : Int)
  let baSec := totalSec - off * 60 + BUENOS_AIRES_OFFSET_MINUTES * 60
  let days := baSec.fdiv 86400
  let rem := baSec - days * 86400
  let c := civilFromDays days
  { year := c.1.toNat, month := c.2.1.toNat, day := c.2.2.toNat,
    hour := (rem.fdiv 3600).toNat,
    minute := ((rem.fmod 3600).fdiv 60).toNat,
    second := (rem.fmod 60).toNat,
    utcoffsetMinutes := Option.some BUENOS_AIRES_OFFSET_MINUTES }

def pad2 (n : Nat) : String :=
  if n < 10 then "0" ++ toString n else toString n

def pad4 (n : Nat) : String :=
  if n < 10 then "000" ++ toString n
  else if n < 100 then "00" ++ toString n
  else if n < 1000 then "0" ++ toString n
  else toString n

/-- `strftime("%H:%M (%Y-%m-%d)")`. -/
def strftimeHMDate (dt : PyDatetime) : String :=
  pad2 dt.hour ++ ":" ++ pad2 dt.minute ++ " (" ++ pad4 dt.year ++ "-" ++
    pad2 dt.month ++ "-" ++ pad2 dt.day ++ ")"

/-! ### The fetch step (source lines 64–107)

The HTTP interaction of one player is abstracted as an `HttpResult`:
`requests.get` + `raise_for_status` either raises a `RequestException`
(modelled with its message), or the body fails to parse as JSON
(`json.JSONDecodeError`), or a JSON value is obtained.  The two `except`
clauses at lines 96–103 absorb exactly those two exception classes; any other
exception (e.g. `KeyError` from `data['matches']`) propagates. -/

inductive HttpResult where
  | transportError (detail : String)
  | invalidJson
  | jsonBody (data : PyVal)

/-- One configured player, `{"name": ..., "api_url": ...}`. -/
structure Player where
  name : String
  api_url : String

/-- Lines 69–106 for one player: derive the status message from the HTTP
result.  `Except.error` means an uncaught Python exception. -/
def fetchPlayerStatus (player_name : String) (r : HttpResult) : Except PyExn String :=
  match r with
  | .transportError e =>
      .ok (statusMsg player_name ("encountered an API error: " ++ e) "")
  | .invalidJson =>
      .ok (statusMsg player_name "returned invalid data" "")
  | .jsonBody data =>
      match pySubscriptStr data "matches" with
      | .error e => .error e
      | .ok ms =>
        if pyTruthy ms then
          match pyIndexZero ms with
          | .error e => .error e
          | .ok last_match =>
            match pyDictGetMethod last_match "finished" with
            | .error e => .error e
            | .ok finished_raw =>
              if pyTruthy finished_raw then
                match pyAsStr finished_raw with
                | .error e => .error e
                | .ok fstr =>
                  match fromisoformat (replaceZ fstr) with
                  | .error e => .error e
                  | .ok dt =>
                    let utc_dt := replaceTzinfoUTC dt
                    let buenos_aires_dt := astimezoneBA utc_dt
                    .ok (statusMsg player_name "finished playing at"
                      (strftimeHMDate buenos_aires_dt))
              else
                .ok (statusMsg player_name "is playing now." "")
        else
          .ok (statusMsg player_name "has no recent matches" "")

/-! ### The run (source lines 42–140) -/

/-- The in-memory accumulators of the fetch loop: `current_results` (a dict)
and `changed_posts` (a list, in player order). -/
structure LoopState where
  current : List (String × String)
  posts : List String
  deriving Repr, DecidableEq

/-- One iteration of the loop at lines 65–122: fetch, record in
`current_results`, and compare with `previous_results` (which the loop never
mutates). -/
def processPlayer (previous : List (String × String)) (resp : Player → HttpResult)
    (st : LoopState) (p : Player) : Except PyExn LoopState :=
  match fetchPlayerStatus p.name (resp p) with
  | .error e => .error e
  | .ok status_message =>
    let current' := pyDictInsert st.current p.name status_message
    match pyDictGet? previous p.name with
    | Option.none => .ok ⟨current', st.posts ++ [status_message]⟩
    | Option.some previous_status =>
        if previous_status ≠ status_message then .ok ⟨current', st.posts ++ [status_message]⟩
        else .ok ⟨current', st.posts⟩

/-- The whole fetch loop over the player list. -/
def runLoop (previous : List (String × String)) (resp : Player → HttpResult) :
    List Player → LoopState → Except PyExn LoopState
  | [], st => .ok st
  | p :: ps, st =>
      match processPlayer previous resp st p with
      | .error e => .error e
      | .ok st' => runLoop previous resp ps st'

/-- The state file `mostrecentmatch.json` as found at run start. -/
inductive FileState where
  | absent
  | malformed
  | content (m : List (String × String))

/-- Lines 48–59: load the previous statuses; a missing file or a
`json.JSONDecodeError` both leave `previous_results = {}`. -/
def loadPrevious : FileState → List (String × String)
  | .absent => []
  | .malformed => []
  | .content m => m

/-- Externally visible effects of a run, in program order: the (attempted)
full rewrite of the state file, and each attempted Bluesky interaction. -/
inductive Event where
  | save (m : List (String × String))
  | postAttempt (text : String)
  deriving Repr, DecidableEq

/-- The process environment and posting API, as the run sees them:
the two credential variables (absent = `None`), and the outcome of a
login+send round trip for a given text (`ok` carries the `(uri, cid)` pair). -/
structure Env where
  identifier : Option String
  password : Option String
  api : String → Except String (String × String)

/-- Truthiness of an optional environment string (`not BLUESKY_IDENTIFIER`
is true for both `None` and `""`). -/
def envTruthy : Option String → Bool
  | Option.none => false
  | Option.some s => s != ""

def credsConfigured (e : Env) : Bool :=
  envTruthy e.identifier && envTruthy e.password

/-- Lines 17–40: skip when a credential is falsy; otherwise login+post, with
every exception caught and turned into `None`. -/
def make_bluesky_post (e : Env) (text_content : String) : Option (String × String) :=
  if !credsConfigured e then Option.none
  else
    match e.api text_content with
    | .ok r => Option.some r
    | .error _ => Option.none

/-- What a completed run did: its effect trace and the per-message results of
`make_bluesky_post` (discarded by the source, kept here for observation). -/
structure RunOutcome where
  events : List Event
  postResults : List (Option (String × String))
  deriving Repr, DecidableEq

/-- Lines 42–140, `check_player_statuses_and_post_changes`: load previous
state, run the fetch loop, attempt the full-state save (an `IOError` there is
caught and only logged: the event records the attempted rewrite), then call
`make_bluesky_post` for every changed status in order.  When the credentials
are not configured each call returns before touching the API, so no
`postAttempt` event is emitted. -/
def check_player_statuses_and_post_changes (players : List Player)
    (fs : FileState) (resp : Player → HttpResult) (e : Env) :
    Except PyExn RunOutcome :=
  let previous_results := loadPrevious fs
  match runLoop previous_results resp players ⟨[], []⟩ with
  | .error exn => .error exn
  | .ok st =>
    let postEvents := if credsConfigured e then st.posts.map Event.postAttempt else []
    .ok ⟨Event.save st.current :: postEvents, st.posts.map (make_bluesky_post e)⟩

/-! ### Derived definitions used by the statements -/

/-- The change-detector verdict for one player (lines 110–122): report when
there is no prior entry or the prior entry differs as a string. -/
def reportable (previous : List (String × String)) (name status : String) : Bool :=
  match pyDictGet? previous name with
  | Option.none => true
  | Option.some pv => pv != status

/-- The status the fetch step computes for a player when it does not raise. -/
def statusOf (resp : Player → HttpResult) (p : Player) : String :=
  ((fetchPlayerStatus p.name (resp p)).toOption).getD ""

/-- A truthy `finished` value the code can handle: a string the timestamp
parser accepts. -/
def finishedOk (f : PyVal) : Bool :=
  if pyTruthy f then
    match f with
    | .str s => (parseIsoChars (replaceZ s).toList).isSome
    | _ => false
  else true

/-- Response bodies on which the fetch step raises no uncaught exception:
a JSON object carrying a `matches` key whose truthy value is a list whose
first entry is an object with a well-formed `finished` value. -/
def wellShapedBody : PyVal → Bool
  | .dict xs =>
      match pyDictGet? xs "matches" with
      | Option.some (.list []) => true
      | Option.some (.list (m :: _)) =>
          match m with
          | .dict ys =>
              finishedOk (match pyDictGet? ys "finished" with
                | Option.some f => f
                | Option.none => PyVal.none)
          | _ => false
      | Option.some w => !pyTruthy w
      | Option.none => false
  | _ => false

def wellShaped : HttpResult → Bool
  | .transportError _ => true
  | .invalidJson => true
  | .jsonBody d => wellShapedBody d

/-- Modelled from the spec's words, for comparison with the code: the status
as `"<name> <outcome> <finished-time-or-empty>"` trimmed of trailing
whitespace only. -/
def specStatusTrailingTrim (name outcome finished_info : String) : String :=
  String.mk (((name ++ " " ++ outcome ++ " " ++
    finished_info).toList.reverse.dropWhile Char.isWhitespace).reverse)

/-! ### Full-fidelity state file

`json.load` at line 53 can return any JSON value, not only an object.  The
variant below carries the decoded value itself, so a state file holding valid
non-object JSON (on which `previous_results.get` at line 110 raises an
uncaught `AttributeError`) is representable.  `FileState` above remains as
the restriction to the string-to-string objects this program itself writes
back at line 127. -/

/-- The state file as found on disk: absent, not decodable as JSON, or any
decoded JSON value. -/
inductive StateFile where
  | absent
  | malformed
  | json (v : PyVal)

/-- Lines 48–59 with full fidelity: `previous_results` is whatever `json.load`
returned; an absent file or a `json.JSONDecodeError` leaves `{}`. -/
def loadPreviousJson : StateFile → PyVal
  | .absent => .dict []
  | .malformed => .dict []
  | .json v => v

/-- Python `!=` between a decoded JSON value and a `str`: only an equal
string compares equal; every non-string value is unequal to a string. -/
def pyEqStr (v : PyVal) (s : String) : Bool :=
  match v with
  | .str s' => s' = s
  | _ => false

/-- One iteration of the loop at lines 65–122 over an arbitrary decoded
`previous_results` value: `previous_results.get(player_name)` raises
`AttributeError` on a non-dict (line 110); a `None` result (absent key or
stored null) is the new-player branch; otherwise the `!=` comparison decides. -/
def processPlayerPy (previous_results : PyVal) (resp : Player → HttpResult)
    (st : LoopState) (p : Player) : Except PyExn LoopState :=
  match fetchPlayerStatus p.name (resp p) with
  | .error e => .error e
  | .ok status_message =>
    let current' := pyDictInsert st.current p.name status_message
    match pyDictGetMethod previous_results p.name with
    | .error e => .error e
    | .ok PyVal.none => .ok ⟨current', st.posts ++ [status_message]⟩
    | .ok previous_status =>
        if !pyEqStr previous_status status_message then
          .ok ⟨current', st.posts ++ [status_message]⟩
        else .ok ⟨current', st.posts⟩

/-- The fetch loop over the player list, with the decoded state value. -/
def runLoopPy (previous_results : PyVal) (resp : Player → HttpResult) :
    List Player → LoopState → Except PyExn LoopState
  | [], st => .ok st
  | p :: ps, st =>
      match processPlayerPy previous_results resp st p with
      | .error e => .error e
      | .ok st' => runLoopPy previous_results resp ps st'

/-- Lines 42–140 over the full-fidelity state file: like
`check_player_statuses_and_post_changes`, but the loaded previous state is
the arbitrary JSON value `json.load` produced. -/
def check_player_statuses_and_post_changes_json (players : List Player)
    (sf : StateFile) (resp : Player → HttpResult) (e : Env) :
    Except PyExn RunOutcome :=
  let previous_results := loadPreviousJson sf
  match runLoopPy previous_results resp players ⟨[], []⟩ with
  | .error exn => .error exn
  | .ok st =>
    let postEvents := if credsConfigured e then st.posts.map Event.postAttempt else []
    .ok ⟨Event.save st.current :: postEvents, st.posts.map (make_bluesky_post e)⟩

/-- State files the run survives: absent, undecodable, or decoding to a JSON
object (whatever its member values). -/
def stateFileOk : StateFile → Bool
  | .absent => true
  | .malformed => true
  | .json (.dict _) => true
  | .json _ => false

/-! ### Helper lemmas -/

lemma pyStrip_append_space (s : String) : pyStrip (s ++ " ") = pyStrip s := by
  have h : (s ++ " ").toList = s.toList ++ [' '] := String.data_append s " "
  unfold pyStrip
  rw [h, List.reverse_append]
  simp [List.dropWhile]

lemma statusMsg_empty_info (n o : String) : statusMsg n o "" = pyStrip (n ++ (" " ++ o)) := by
  unfold statusMsg
  rw [String.append_empty, pyStrip_append_space, String.append_assoc]

lemma processPlayer_ok (previous : List (String × String)) (resp : Player → HttpResult)
    (acc : LoopState) (p : Player) (s : String)
    (h : fetchPlayerStatus p.name (resp p) = .ok s) :
    processPlayer previous resp acc p =
      .ok ⟨pyDictInsert acc.current p.name s,
           acc.posts ++ (if reportable previous p.name s then [s] else [])⟩ := by
  unfold processPlayer
  rw [h]
  unfold reportable
  cases hprev : pyDictGet? previous p.name with
  | none => simp
  | some pv =>
      by_cases hne : pv = s
      · subst hne; simp
      · simp [hne]

lemma runLoop_spec (previous : List (String × String)) (resp : Player → HttpResult)
    (st : Player → String) :
    ∀ (players : List Player),
      (∀ p ∈ players, fetchPlayerStatus p.name (resp p) = .ok (st p)) →
    ∀ (acc : LoopState),
    runLoop previous resp players acc =
      .ok ⟨players.foldl (fun c p => pyDictInsert c p.name (st p)) acc.current,
           acc.posts ++ (players.filter
             (fun p => reportable previous p.name (st p))).map st⟩
  | [], _, acc => by simp [runLoop]
  | p :: ps, hok, acc => by
      have hp := hok p (List.mem_cons_self _ _)
      rw [runLoop, processPlayer_ok previous resp acc p (st p) hp]
      dsimp only
      rw [runLoop_spec previous resp st ps
        (fun q hq => hok q (List.mem_cons_of_mem _ hq))]
      by_cases hr : reportable previous p.name (st p) <;>
        simp [hr, List.filter_cons]

lemma runLoop_ok_fetch (previous : List (String × String)) (resp : Player → HttpResult) :
    ∀ (players : List Player) (acc : LoopState) (st : LoopState),
    runLoop previous resp players acc = .ok st →
    ∀ p ∈ players, fetchPlayerStatus p.name (resp p) = .ok (statusOf resp p)
  | [], acc, st, _, p, hp => absurd hp (List.not_mem_nil p)
  | q :: ps, acc, st, h, p, hp => by
      rw [runLoop] at h
      cases hpp : processPlayer previous resp acc q with
      | error e => rw [hpp] at h; exact absurd h (by simp)
      | ok acc' =>
          rw [hpp] at h
          rcases List.mem_cons.mp hp with rfl | hmem
          · unfold processPlayer at hpp
            cases hf : fetchPlayerStatus p.name (resp p) with
            | error e => rw [hf] at hpp; exact absurd hpp (by simp)
            | ok s => simp [statusOf, hf, Except.toOption]
          · exact runLoop_ok_fetch previous resp ps acc' st h p hmem

lemma pyDictGet?_insert_self {α : Type} (c : List (String × α)) (k : String) (v : α) :
    pyDictGet? (pyDictInsert c k v) k = Option.some v := by
  induction c with
  | nil => simp [pyDictInsert, pyDictGet?]
  | cons x rest ih =>
      obtain ⟨k', v'⟩ := x
      by_cases h : k' = k <;> simp [pyDictInsert, pyDictGet?, h, ih]

lemma pyDictGet?_insert_other {α : Type} (c : List (String × α)) (k k' : String) (v : α)
    (h : k' ≠ k) : pyDictGet? (pyDictInsert c k' v) k = pyDictGet? c k := by
  induction c with
  | nil => simp [pyDictInsert, pyDictGet?, h]
  | cons x rest ih =>
      obtain ⟨k'', v''⟩ := x
      by_cases h2 : k'' = k' <;> by_cases h3 : k'' = k <;>
        simp_all [pyDictInsert, pyDictGet?]

lemma pyDictGet?_foldl_not_mem (st : Player → String) (k : String) :
    ∀ (ps : List Player) (c : List (String × String)), k ∉ ps.map Player.name →
    pyDictGet? (ps.foldl (fun c p => pyDictInsert c p.name (st p)) c) k = pyDictGet? c k
  | [], c, _ => rfl
  | q :: ps, c, h => by
      rw [List.map_cons] at h
      have h1 := List.ne_of_not_mem_cons h
      have h2 := List.not_mem_of_not_mem_cons h
      rw [List.foldl_cons]
      rw [pyDictGet?_foldl_not_mem st k ps _ h2]
      exact pyDictGet?_insert_other c k q.name (st q) (fun he => h1 he.symm)

lemma pyDictGet?_build (st : Player → String) :
    ∀ (ps : List Player) (c : List (String × String)),
    (ps.map Player.name).Nodup →
    ∀ p ∈ ps,
    pyDictGet? (ps.foldl (fun c q => pyDictInsert c q.name (st q)) c) p.name =
      Option.some (st p)
  | [], c, _, p, hp => absurd hp (List.not_mem_nil p)
  | q :: ps, c, hnd, p, hp => by
      rw [List.map_cons, List.nodup_cons] at hnd
      obtain ⟨hq, hnd'⟩ := hnd
      rw [List.foldl_cons]
      rcases List.mem_cons.mp hp with rfl | hmem
      · rw [pyDictGet?_foldl_not_mem st p.name ps _ hq]
        exact pyDictGet?_insert_self c p.name (st p)
      · exact pyDictGet?_build st ps _ hnd' p hmem

lemma fetchPlayerStatus_ok_shape (n : String) (r : HttpResult) (s : String)
    (h : fetchPlayerStatus n r = .ok s) :
    ∃ outcome info, s = statusMsg n outcome info := by
  cases r with
  | transportError e => exact ⟨_, _, (Except.ok.inj h).symm⟩
  | invalidJson => exact ⟨_, _, (Except.ok.inj h).symm⟩
  | jsonBody data =>
      unfold fetchPlayerStatus at h
      repeat' split at h
      all_goals simp at h
      all_goals exact ⟨_, _, h.symm⟩

lemma wellShaped_fetch_ok (n : String) (r : HttpResult) (h : wellShaped r = true) :
    ∃ s, fetchPlayerStatus n r = .ok s := by
  cases r with
  | transportError e => exact ⟨_, rfl⟩
  | invalidJson => exact ⟨_, rfl⟩
  | jsonBody data =>
      cases data with
      | dict xs =>
          simp only [wellShaped, wellShapedBody] at h
          cases hm : pyDictGet? xs "matches" with
          | none => rw [hm] at h; simp at h
          | some w =>
              rw [hm] at h
              cases w with
              | list ms =>
                  cases ms with
                  | nil =>
                      exact ⟨statusMsg n "has no recent matches" "",
                        by simp [fetchPlayerStatus, pySubscriptStr, hm, pyTruthy]⟩
                  | cons m rest =>
                      cases m with
                      | dict ys =>
                          dsimp only at h
                          cases hf : pyDictGet? ys "finished" with
                          | none =>
                              exact ⟨statusMsg n "is playing now." "",
                                by simp [fetchPlayerStatus, pySubscriptStr, hm,
                                  pyTruthy, pyIndexZero, pyDictGetMethod, hf]⟩
                          | some f =>
                              rw [hf] at h
                              dsimp only at h
                              unfold finishedOk at h
                              by_cases ht : pyTruthy f = true
                              · rw [if_pos ht] at h
                                cases f with
                                | str fs =>
                                    dsimp only at h
                                    cases hp : parseIsoChars (replaceZ fs).toList with
                                    | none => rw [hp] at h; simp at h
                                    | some dt =>
                                        have hne : ¬ fs = "" := by
                                          simpa [pyTruthy] using ht
                                        have hp' : parseIsoChars (replaceZ fs).data =
                                            Option.some dt := hp
                                        exact ⟨statusMsg n "finished playing at"
                                            (strftimeHMDate (astimezoneBA (replaceTzinfoUTC dt))),
                                          by simp [fetchPlayerStatus, pySubscriptStr, hm,
                                            pyTruthy, pyIndexZero, pyDictGetMethod, hf,
                                            pyAsStr, fromisoformat, hp', hne]⟩
                                | none => simp [pyTruthy] at ht
                                | bool b => simp_all
                                | int i => simp at h
                                | list l => simp at h
                                | dict d => simp at h
                              · rw [if_neg ht] at h
                                have ht' : pyTruthy f = false := by simpa using ht
                                have hl : pyTruthy (.list (PyVal.dict ys :: rest)) = true := by
                                  simp [pyTruthy]
                                exact ⟨statusMsg n "is playing now." "",
                                  by simp [fetchPlayerStatus, pySubscriptStr, hm, hl,
                                    pyIndexZero, pyDictGetMethod, hf, ht']⟩
                      | none => simp at h
                      | bool b => simp at h
                      | int i => simp at h
                      | str s2 => simp at h
                      | list l => simp at h
              | none =>
                  exact ⟨statusMsg n "has no recent matches" "",
                    by simp [fetchPlayerStatus, pySubscriptStr, hm, pyTruthy]⟩
              | bool b =>
                  simp only [Bool.not_eq_true'] at h
                  exact ⟨statusMsg n "has no recent matches" "",
                    by simp [fetchPlayerStatus, pySubscriptStr, hm, h]⟩
              | int i =>
                  simp only [Bool.not_eq_true'] at h
                  exact ⟨statusMsg n "has no recent matches" "",
                    by simp [fetchPlayerStatus, pySubscriptStr, hm, h]⟩
              | str s2 =>
                  simp only [Bool.not_eq_true'] at h
                  exact ⟨statusMsg n "has no recent matches" "",
                    by simp [fetchPlayerStatus, pySubscriptStr, hm, h]⟩
              | dict d =>
                  simp only [Bool.not_eq_true'] at h
                  exact ⟨statusMsg n "has no recent matches" "",
                    by simp [fetchPlayerStatus, pySubscriptStr, hm, h]⟩
      | none => simp [wellShaped, wellShapedBody] at h
      | bool b => simp [wellShaped, wellShapedBody] at h
      | int i => simp [wellShaped, wellShapedBody] at h
      | str s2 => simp [wellShaped, wellShapedBody] at h
      | list l => simp [wellShaped, wellShapedBody] at h

lemma runLoop_ok_of_wellShaped (previous : List (String × String))
    (resp : Player → HttpResult) :
    ∀ (ps : List Player), (∀ p ∈ ps, wellShaped (resp p) = true) →
    ∀ (acc : LoopState), ∃ st, runLoop previous resp ps acc = .ok st
  | [], _, acc => ⟨acc, rfl⟩
  | p :: ps, h, acc => by
      obtain ⟨s, hs⟩ := wellShaped_fetch_ok p.name (resp p) (h p (List.mem_cons_self _ _))
      rw [runLoop, processPlayer_ok previous resp acc p s hs]
      dsimp only
      exact runLoop_ok_of_wellShaped previous resp ps
        (fun q hq => h q (List.mem_cons_of_mem _ hq)) _

lemma processPlayerPy_ok (xs : List (String × PyVal)) (resp : Player → HttpResult)
    (acc : LoopState) (p : Player) (s : String)
    (hfetch : fetchPlayerStatus p.name (resp p) = .ok s) :
    ∃ acc', processPlayerPy (.dict xs) resp acc p = .ok acc' := by
  unfold processPlayerPy
  rw [hfetch]
  obtain ⟨w, hw⟩ : ∃ w, pyDictGetMethod (PyVal.dict xs) p.name = .ok w := by
    cases hg : pyDictGet? xs p.name with
    | none => exact ⟨PyVal.none, by simp [pyDictGetMethod, hg]⟩
    | some v => exact ⟨v, by simp [pyDictGetMethod, hg]⟩
  rw [hw]
  cases w with
  | none => exact ⟨_, rfl⟩
  | bool b => dsimp only; split <;> exact ⟨_, rfl⟩
  | int i => dsimp only; split <;> exact ⟨_, rfl⟩
  | str s' => dsimp only; split <;> exact ⟨_, rfl⟩
  | list l => dsimp only; split <;> exact ⟨_, rfl⟩
  | dict d => dsimp only; split <;> exact ⟨_, rfl⟩

lemma runLoopPy_ok_of_wellShaped (xs : List (String × PyVal))
    (resp : Player → HttpResult) :
    ∀ (ps : List Player), (∀ p ∈ ps, wellShaped (resp p) = true) →
    ∀ (acc : LoopState), ∃ st, runLoopPy (.dict xs) resp ps acc = .ok st
  | [], _, acc => ⟨acc, rfl⟩
  | p :: ps, h, acc => by
      obtain ⟨s, hs⟩ := wellShaped_fetch_ok p.name (resp p) (h p (List.mem_cons_self _ _))
      obtain ⟨acc', hacc'⟩ := processPlayerPy_ok xs resp acc p s hs
      rw [runLoopPy, hacc']
      exact runLoopPy_ok_of_wellShaped xs resp ps
        (fun q hq => h q (List.mem_cons_of_mem _ hq)) acc'

/-- A state file holding valid JSON that is not an object: `json.load`
succeeds, so the `except json.JSONDecodeError` at line 55 does not fire, and
`previous_results.get(player_name)` at line 110 raises an uncaught
`AttributeError`, aborting the run even with every HTTP body well shaped. -/
lemma nonObjectStateFile_raises :
    check_player_statuses_and_post_changes_json [⟨"a", "u"⟩]
      (.json (.list [.int 1, .int 2, .int 3]))
      (fun _ => .jsonBody (.dict [("matches", .list [])]))
      ⟨Option.none, Option.none, fun _ => .error ""⟩ =
      .error .attributeError := rfl

lemma pyDictGet?_map_str (m : List (String × String)) (k : String) :
    pyDictGet? (m.map (fun kv => (kv.1, PyVal.str kv.2))) k =
      (pyDictGet? m k).map PyVal.str := by
  induction m with
  | nil => rfl
  | cons kv rest ih =>
      obtain ⟨k', v'⟩ := kv
      by_cases h : k' = k <;> simp [pyDictGet?, h, ih]

lemma processPlayerPy_agrees (m : List (String × String)) (resp : Player → HttpResult)
    (acc : LoopState) (p : Player) :
    processPlayerPy (.dict (m.map (fun kv => (kv.1, PyVal.str kv.2)))) resp acc p =
      processPlayer m resp acc p := by
  unfold processPlayerPy processPlayer
  cases hf : fetchPlayerStatus p.name (resp p) with
  | error e => rfl
  | ok s =>
      have hg : pyDictGetMethod (PyVal.dict (m.map (fun kv => (kv.1, PyVal.str kv.2))))
          p.name = .ok ((pyDictGet? m p.name).elim PyVal.none PyVal.str) := by
        simp only [pyDictGetMethod, pyDictGet?_map_str]
        cases hx : pyDictGet? m p.name <;> simp [hx]
      rw [hg]
      cases hprev : pyDictGet? m p.name with
      | none => rfl
      | some pv =>
          dsimp only [Option.elim]
          by_cases he : pv = s
          · subst he; simp [pyEqStr]
          · simp [pyEqStr, he]

lemma runLoopPy_agrees (m : List (String × String)) (resp : Player → HttpResult) :
    ∀ (ps : List Player) (acc : LoopState),
    runLoopPy (.dict (m.map (fun kv => (kv.1, PyVal.str kv.2)))) resp ps acc =
      runLoop m resp ps acc
  | [], acc => rfl
  | p :: ps, acc => by
      rw [runLoopPy, runLoop, processPlayerPy_agrees]
      cases processPlayer m resp acc p with
      | error e => rfl
      | ok st' => exact runLoopPy_agrees m resp ps st'

/-- On the state files `FileState` represents, the full-fidelity run agrees
with `check_player_statuses_and_post_changes`. -/
lemma check_json_agrees (players : List Player) (m : List (String × String))
    (resp : Player → HttpResult) (e : Env) :
    check_player_statuses_and_post_changes_json players
        (.json (.dict (m.map (fun kv => (kv.1, PyVal.str kv.2))))) resp e =
      check_player_statuses_and_post_changes players (.content m) resp e ∧
    check_player_statuses_and_post_changes_json players .absent resp e =
      check_player_statuses_and_post_changes players .absent resp e ∧
    check_player_statuses_and_post_changes_json players .malformed resp e =
      check_player_statuses_and_post_changes players .malformed resp e := by
  refine ⟨?_, ?_, ?_⟩
  · simp only [check_player_statuses_and_post_changes_json,
      check_player_statuses_and_post_changes, loadPreviousJson, loadPrevious]
    rw [runLoopPy_agrees]
  · simp only [check_player_statuses_and_post_changes_json,
      check_player_statuses_and_post_changes, loadPreviousJson, loadPrevious]
    have h := runLoopPy_agrees [] resp players ⟨[], []⟩
    simp only [List.map_nil] at h
    rw [h]
  · simp only [check_player_statuses_and_post_changes_json,
      check_player_statuses_and_post_changes, loadPreviousJson, loadPrevious]
    have h := runLoopPy_agrees [] resp players ⟨[], []⟩
    simp only [List.map_nil] at h
    rw [h]

/-! ### The claims -/

/-- Claim C1: when a player's HTTP body is not valid JSON, the fetch step does
not raise — the status is the strip of `"<name> returned invalid data"` — and
the loop proceeds to process all remaining players. -/
theorem claim_C1 (p : Player) (rest : List Player)
    (previous : List (String × String)) (resp : Player → HttpResult)
    (acc : LoopState) (h : resp p = .invalidJson) :
    fetchPlayerStatus p.name (resp p) =
      .ok (pyStrip (p.name ++ " returned invalid data")) ∧
    ∃ acc', processPlayer previous resp acc p = .ok acc' ∧
      runLoop previous resp (p :: rest) acc = runLoop previous resp rest acc' := by
  have hfetch : fetchPlayerStatus p.name (resp p) =
      .ok (statusMsg p.name "returned invalid data" "") := by rw [h]; rfl
  have hform : statusMsg p.name "returned invalid data" "" =
      pyStrip (p.name ++ " returned invalid data") := by
    rw [statusMsg_empty_info]; rfl
  refine ⟨by rw [hfetch, hform], ?_⟩
  refine ⟨_, processPlayer_ok previous resp acc p _ hfetch, ?_⟩
  rw [runLoop, processPlayer_ok previous resp acc p _ hfetch]

/-- Claim C1: when a player's HTTP body is not valid JSON, the fetch step does
not raise — the status is the strip of `"<name> returned invalid data"` — and
the loop proceeds to process all remaining players. -/
theorem claim_C1_witness :
    fetchPlayerStatus "alanthekat" HttpResult.invalidJson =
      .ok (pyStrip ("alanthekat" ++ " returned invalid data")) ∧
    ∃ acc', processPlayer [] (fun _ => HttpResult.invalidJson) ⟨[], []⟩
        ⟨"alanthekat", "u"⟩ = .ok acc' ∧
      runLoop [] (fun _ => HttpResult.invalidJson) [⟨"alanthekat", "u"⟩] ⟨[], []⟩ =
        runLoop [] (fun _ => HttpResult.invalidJson) [] acc' :=
  claim_C1 ⟨"alanthekat", "u"⟩ [] [] (fun _ => HttpResult.invalidJson) ⟨[], []⟩ rfl

/-- Counterexample to C2: a valid-JSON body that is an object without a
`"matches"` key raises `KeyError` at line 78, which neither `except` clause
catches, so the exception escapes the whole run (stated over the
full-fidelity state-file model; the prior file is simply absent here). -/
theorem claim_C2_counterexample :
    check_player_statuses_and_post_changes_json [⟨"a", "u"⟩] .absent
      (fun _ => .jsonBody (.dict []))
      ⟨Option.none, Option.none, fun _ => .error ""⟩ =
      .error (.keyError "matches") := rfl

/-- Claim C2 (amended): no exception escapes the run — for any environment
and posting outcomes — provided the state file is absent, not decodable as
JSON, or decodes to a JSON object (member values arbitrary), and every HTTP
body that parses as JSON is well shaped (an object with a `"matches"` key; a
truthy matches value is a list whose first entry is an object; a truthy
`finished` is a parseable timestamp string).  Outside that, exceptions do
escape: a valid-JSON non-object state file raises an uncaught
`AttributeError` at line 110 (`nonObjectStateFile_raises`), and a JSON body
without `"matches"` an uncaught `KeyError` at line 78.  Transport errors,
invalid-JSON bodies, an undecodable state file, and posting failures are all
absorbed. -/
theorem claim_C2_amended (players : List Player) (sf : StateFile)
    (resp : Player → HttpResult) (e : Env)
    (hfile : stateFileOk sf = true)
    (hbody : ∀ p ∈ players, wellShaped (resp p) = true) :
    ∃ out, check_player_statuses_and_post_changes_json players sf resp e =
      .ok out := by
  have hdict : ∃ xs, loadPreviousJson sf = PyVal.dict xs := by
    cases sf with
    | absent => exact ⟨[], rfl⟩
    | malformed => exact ⟨[], rfl⟩
    | json v =>
        cases v with
        | dict xs => exact ⟨xs, rfl⟩
        | none => simp [stateFileOk] at hfile
        | bool b => simp [stateFileOk] at hfile
        | int i => simp [stateFileOk] at hfile
        | str s2 => simp [stateFileOk] at hfile
        | list l => simp [stateFileOk] at hfile
  obtain ⟨xs, hxs⟩ := hdict
  obtain ⟨st, hst⟩ := runLoopPy_ok_of_wellShaped xs resp players hbody ⟨[], []⟩
  exact ⟨⟨Event.save st.current ::
      (if credsConfigured e then st.posts.map Event.postAttempt else []),
      st.posts.map (make_bluesky_post e)⟩,
    by simp only [check_player_statuses_and_post_changes_json, hxs, hst]⟩

/-- Witness for the amended C2 at a concrete run whose state file decodes to
a JSON object with a non-string member value. -/
theorem claim_C2_amended_witness :
    ∃ out, check_player_statuses_and_post_changes_json [⟨"a", "u"⟩]
      (.json (.dict [("a", .int 5)]))
      (fun _ => .jsonBody (.dict [("matches", .list [])]))
      ⟨Option.none, Option.none, fun _ => .error ""⟩ = .ok out :=
  claim_C2_amended _ _ _ _ rfl
    (by intro p hp; simp only [List.mem_singleton] at hp; subst hp; rfl)

/-- Claim C3: a most-recent match finished at `2024-03-10T18:30:00Z`, rendered
in the fixed UTC−3 zone, yields a status containing `15:30 (2024-03-10)`
(exhibited by the explicit concatenation), and the `Z`-suffix and explicit
`+00:00` forms of the same instant render identically. -/
theorem claim_C3 :
    fetchPlayerStatus "Carpincho" (.jsonBody (.dict [("matches",
        .list [.dict [("finished", .str "2024-03-10T18:30:00Z")]])])) =
      .ok ("Carpincho finished playing at " ++ "15:30 (2024-03-10)") ∧
    fetchPlayerStatus "Carpincho" (.jsonBody (.dict [("matches",
        .list [.dict [("finished", .str "2024-03-10T18:30:00+00:00")]])])) =
      .ok ("Carpincho finished playing at " ++ "15:30 (2024-03-10)") :=
  ⟨rfl, rfl⟩

/-- Claim C4: with the fetched status of player `p` being `st p`, the posted
sequence is exactly the in-order sublist of statuses of the players whose
prior entry is missing (`reportable` is then true) or differs by string
inequality, mapped without deduplication; players whose prior entry equals
the new status are skipped. -/
theorem claim_C4 (players : List Player) (previous : List (String × String))
    (resp : Player → HttpResult) (st : Player → String)
    (hok : ∀ p ∈ players, fetchPlayerStatus p.name (resp p) = .ok (st p)) :
    runLoop previous resp players ⟨[], []⟩ =
      .ok ⟨players.foldl (fun c p => pyDictInsert c p.name (st p)) [],
           (players.filter (fun p => reportable previous p.name (st p))).map st⟩ := by
  simpa using runLoop_spec previous resp st players hok ⟨[], []⟩

/-- Claim C4: with the fetched status of player `p` being `st p`, the posted
sequence is exactly the in-order sublist of statuses of the players whose
prior entry is missing (`reportable` is then true) or differs by string
inequality, mapped without deduplication; players whose prior entry equals
the new status are skipped. -/
theorem claim_C4_witness :
    runLoop [("b", "b has no recent matches"), ("c", "x")]
      (fun _ => .jsonBody (.dict [("matches", .list [])]))
      [⟨"a", "u1"⟩, ⟨"b", "u2"⟩] ⟨[], []⟩ =
      .ok ⟨([⟨"a", "u1"⟩, ⟨"b", "u2"⟩] : List Player).foldl
             (fun c p => pyDictInsert c p.name (p.name ++ " has no recent matches")) [],
           (([⟨"a", "u1"⟩, ⟨"b", "u2"⟩] : List Player).filter
             (fun p => reportable [("b", "b has no recent matches"), ("c", "x")]
               p.name (p.name ++ " has no recent matches"))).map
             (fun p => p.name ++ " has no recent matches")⟩ :=
  claim_C4 [⟨"a", "u1"⟩, ⟨"b", "u2"⟩] [("b", "b has no recent matches"), ("c", "x")]
    (fun _ => .jsonBody (.dict [("matches", .list [])]))
    (fun p => p.name ++ " has no recent matches")
    (by intro p hp
        simp only [List.mem_cons, List.not_mem_nil, or_false] at hp
        rcases hp with rfl | rfl <;> rfl)

/-- Claim C5: round-trip idempotence.  If run N persists mapping `cur` (the
head event of its outcome) and run N+1 starts from `cur` and computes the
same status for every (uniquely named, per the data model) player, then run
N+1 posts nothing: its outcome is just the identical save, with no post
attempts and no post results. -/
theorem claim_C5 (players : List Player) (st : Player → String)
    (resp resp' : Player → HttpResult) (fs : FileState) (e₁ e₂ : Env)
    (out₁ : RunOutcome)
    (hnodup : (players.map Player.name).Nodup)
    (hok : ∀ p ∈ players, fetchPlayerStatus p.name (resp p) = .ok (st p))
    (hok' : ∀ p ∈ players, fetchPlayerStatus p.name (resp' p) = .ok (st p))
    (hN : check_player_statuses_and_post_changes players fs resp e₁ = .ok out₁) :
    ∃ cur, out₁.events.head? = Option.some (.save cur) ∧
      check_player_statuses_and_post_changes players (.content cur) resp' e₂ =
        .ok ⟨[Event.save cur], []⟩ := by
  have h1 : runLoop (loadPrevious fs) resp players ⟨[], []⟩ =
      .ok ⟨players.foldl (fun c p => pyDictInsert c p.name (st p)) [],
           (players.filter
             (fun p => reportable (loadPrevious fs) p.name (st p))).map st⟩ := by
    simpa using runLoop_spec (loadPrevious fs) resp st players hok ⟨[], []⟩
  refine ⟨players.foldl (fun c p => pyDictInsert c p.name (st p)) [], ?_, ?_⟩
  · simp only [check_player_statuses_and_post_changes, h1] at hN
    rw [← (Except.ok.inj hN)]
    rfl
  · have hlook : ∀ p ∈ players,
        pyDictGet? (players.foldl (fun c q => pyDictInsert c q.name (st q)) []) p.name =
          Option.some (st p) :=
      fun p hp => pyDictGet?_build st players [] hnodup p hp
    have hfil : players.filter (fun p =>
        reportable (players.foldl (fun c q => pyDictInsert c q.name (st q)) [])
          p.name (st p)) = [] := by
      rw [List.filter_eq_nil_iff]
      intro p hp
      unfold reportable
      rw [hlook p hp]
      simp
    have h2 : runLoop (players.foldl (fun c q => pyDictInsert c q.name (st q)) [])
        resp' players ⟨[], []⟩ =
        .ok ⟨players.foldl (fun c p => pyDictInsert c p.name (st p)) [], []⟩ := by
      have := runLoop_spec
        (players.foldl (fun c q => pyDictInsert c q.name (st q)) []) resp' st players
        hok' ⟨[], []⟩
      rw [hfil] at this
      simpa using this
    simp only [check_player_statuses_and_post_changes, loadPrevious, h2]
    simp

/-- Claim C5: round-trip idempotence.  If run N persists mapping `cur` (the
head event of its outcome) and run N+1 starts from `cur` and computes the
same status for every (uniquely named, per the data model) player, then run
N+1 posts nothing: its outcome is just the identical save, with no post
attempts and no post results. -/
theorem claim_C5_witness :
    ∃ cur, (RunOutcome.mk [Event.save [("a", "a has no recent matches")]]
        [Option.none]).events.head? = Option.some (.save cur) ∧
      check_player_statuses_and_post_changes [⟨"a", "u"⟩] (.content cur)
        (fun _ => .jsonBody (.dict [("matches", .list [])]))
        ⟨Option.none, Option.none, fun _ => .error ""⟩ =
        .ok ⟨[Event.save cur], []⟩ :=
  claim_C5 [⟨"a", "u"⟩] (fun p => p.name ++ " has no recent matches")
    (fun _ => .jsonBody (.dict [("matches", .list [])]))
    (fun _ => .jsonBody (.dict [("matches", .list [])]))
    .absent
    ⟨Option.none, Option.none, fun _ => .error ""⟩
    ⟨Option.none, Option.none, fun _ => .error ""⟩
    ⟨[Event.save [("a", "a has no recent matches")]], [Option.none]⟩
    (by simp)
    (by intro p hp; simp only [List.mem_singleton] at hp; subst hp; rfl)
    (by intro p hp; simp only [List.mem_singleton] at hp; subst hp; rfl)
    rfl

/-- Claim C6: in every completed run the full current mapping is saved first —
before any posting attempt, whatever the credentials and posting outcomes —
and the saved mapping is the same for every prior file state (full overwrite,
not a merge). -/
theorem claim_C6 (players : List Player) (fs : FileState)
    (resp : Player → HttpResult) (st : LoopState)
    (hloop : runLoop (loadPrevious fs) resp players ⟨[], []⟩ = .ok st) :
    (∀ e : Env, ∃ rest,
      check_player_statuses_and_post_changes players fs resp e =
        .ok ⟨Event.save st.current :: rest, st.posts.map (make_bluesky_post e)⟩ ∧
      ∀ ev ∈ rest, ∃ t, ev = Event.postAttempt t) ∧
    (∀ fs' : FileState, ∃ st' : LoopState,
      runLoop (loadPrevious fs') resp players ⟨[], []⟩ = .ok st' ∧
      st'.current = st.current) := by
  constructor
  · intro e
    refine ⟨if credsConfigured e then st.posts.map Event.postAttempt else [], ?_, ?_⟩
    · simp only [check_player_statuses_and_post_changes, hloop]
    · intro ev hev
      by_cases hc : credsConfigured e
      · rw [if_pos hc] at hev
        obtain ⟨t, _, rfl⟩ := List.mem_map.mp hev
        exact ⟨t, rfl⟩
      · rw [if_neg hc] at hev
        exact absurd hev (List.not_mem_nil ev)
  · intro fs'
    have hok := runLoop_ok_fetch (loadPrevious fs) resp players ⟨[], []⟩ st hloop
    have h1 := runLoop_spec (loadPrevious fs) resp (statusOf resp) players hok ⟨[], []⟩
    have h2 := runLoop_spec (loadPrevious fs') resp (statusOf resp) players hok ⟨[], []⟩
    rw [hloop] at h1
    refine ⟨_, h2, ?_⟩
    have h3 := Except.ok.inj h1
    rw [h3]

/-- Claim C6: in every completed run the full current mapping is saved first —
before any posting attempt, whatever the credentials and posting outcomes —
and the saved mapping is the same for every prior file state (full overwrite,
not a merge). -/
theorem claim_C6_witness :
    ((∀ e : Env, ∃ rest,
      check_player_statuses_and_post_changes [⟨"a", "u"⟩] .absent
          (fun _ => .invalidJson) e =
        .ok ⟨Event.save (LoopState.mk [("a", "a returned invalid data")]
              ["a returned invalid data"]).current :: rest,
            (LoopState.mk [("a", "a returned invalid data")]
              ["a returned invalid data"]).posts.map (make_bluesky_post e)⟩ ∧
      ∀ ev ∈ rest, ∃ t, ev = Event.postAttempt t) ∧
    (∀ fs' : FileState, ∃ st' : LoopState,
      runLoop (loadPrevious fs') (fun _ => .invalidJson) [⟨"a", "u"⟩] ⟨[], []⟩ =
        .ok st' ∧
      st'.current = (LoopState.mk [("a", "a returned invalid data")]
        ["a returned invalid data"]).current)) :=
  claim_C6 [⟨"a", "u"⟩] .absent (fun _ => .invalidJson)
    ⟨[("a", "a returned invalid data")], ["a returned invalid data"]⟩ rfl

/-- Claim C7: the state load fails soft — an absent file and a malformed file
both yield an empty prior mapping, a malformed-file run behaves exactly like
a first run, and it still rewrites the file (the save event) on completion. -/
theorem claim_C7 :
    loadPrevious .absent = [] ∧ loadPrevious .malformed = [] ∧
    (∀ (players : List Player) (resp : Player → HttpResult) (e : Env),
      check_player_statuses_and_post_changes players .malformed resp e =
        check_player_statuses_and_post_changes players .absent resp e) ∧
    (∀ (players : List Player) (resp : Player → HttpResult) (e : Env)
        (st : LoopState),
      runLoop [] resp players ⟨[], []⟩ = .ok st →
      ∃ rest, check_player_statuses_and_post_changes players .malformed resp e =
        .ok ⟨Event.save st.current :: rest,
             st.posts.map (make_bluesky_post e)⟩) := by
  refine ⟨rfl, rfl, fun players resp e => rfl, ?_⟩
  intro players resp e st hloop
  refine ⟨if credsConfigured e then st.posts.map Event.postAttempt else [], ?_⟩
  simp only [check_player_statuses_and_post_changes, loadPrevious, hloop]

/-- Claim C7: the state load fails soft — an absent file and a malformed file
both yield an empty prior mapping, a malformed-file run behaves exactly like
a first run, and it still rewrites the file (the save event) on completion. -/
theorem claim_C7_witness :
    ∃ rest, check_player_statuses_and_post_changes [⟨"a", "u"⟩] .malformed
        (fun _ => .invalidJson) ⟨Option.none, Option.none, fun _ => .error ""⟩ =
      .ok ⟨Event.save (LoopState.mk [("a", "a returned invalid data")]
            ["a returned invalid data"]).current :: rest,
          (LoopState.mk [("a", "a returned invalid data")]
            ["a returned invalid data"]).posts.map
            (make_bluesky_post ⟨Option.none, Option.none, fun _ => .error ""⟩)⟩ :=
  claim_C7.2.2.2 [⟨"a", "u"⟩] (fun _ => .invalidJson)
    ⟨Option.none, Option.none, fun _ => .error ""⟩
    ⟨[("a", "a returned invalid data")], ["a returned invalid data"]⟩ rfl

/-- Counterexample to C8: Python `str.strip()` trims both ends, so for the
player name `" x"` (leading space) and an empty match list the code yields
`"x has no recent matches"`, while the claim formula, trimmed of trailing
whitespace only, yields `" x has no recent matches"`. -/
theorem claim_C8_counterexample :
    fetchPlayerStatus " x" (.jsonBody (.dict [("matches", .list [])])) =
      .ok "x has no recent matches" ∧
    specStatusTrailingTrim " x" "has no recent matches" "" =
      " x has no recent matches" ∧
    ("x has no recent matches" : String) ≠ " x has no recent matches" :=
  ⟨rfl, rfl, by decide⟩

/-- Claim C8 (amended): whenever the fetch step returns a status, it equals
`"<name> <outcome> <finished-time-or-empty>"` trimmed of leading and trailing
whitespace (Python `str.strip`); an empty matches list yields exactly
`strip("<name> has no recent matches")`, and a most-recent match whose
`finished` is absent or null yields exactly `strip("<name> is playing now.")`. -/
theorem claim_C8_amended :
    (∀ (n : String) (r : HttpResult) (s : String), fetchPlayerStatus n r = .ok s →
      ∃ outcome info, s = pyStrip (n ++ " " ++ outcome ++ " " ++ info)) ∧
    (∀ n : String, fetchPlayerStatus n (.jsonBody (.dict [("matches", .list [])])) =
      .ok (pyStrip (n ++ " has no recent matches"))) ∧
    (∀ n : String, fetchPlayerStatus n (.jsonBody (.dict [("matches",
        .list [.dict []])])) = .ok (pyStrip (n ++ " is playing now."))) ∧
    (∀ (n : String) (ys : List (String × PyVal)),
      pyDictGet? ys "finished" = Option.some PyVal.none →
      fetchPlayerStatus n (.jsonBody (.dict [("matches", .list [.dict ys])])) =
        .ok (pyStrip (n ++ " is playing now."))) := by
  refine ⟨?_, ?_, ?_, ?_⟩
  · intro n r s h
    obtain ⟨outcome, info, rfl⟩ := fetchPlayerStatus_ok_shape n r s h
    exact ⟨outcome, info, rfl⟩
  · intro n
    have h : fetchPlayerStatus n (.jsonBody (.dict [("matches", .list [])])) =
        .ok (statusMsg n "has no recent matches" "") := rfl
    rw [h, statusMsg_empty_info]
    rfl
  · intro n
    have h : fetchPlayerStatus n (.jsonBody (.dict [("matches", .list [.dict []])])) =
        .ok (statusMsg n "is playing now." "") := rfl
    rw [h, statusMsg_empty_info]
    rfl
  · intro n ys hf
    have h : fetchPlayerStatus n (.jsonBody (.dict [("matches", .list [.dict ys])])) =
        .ok (statusMsg n "is playing now." "") := by
      simp [fetchPlayerStatus, pySubscriptStr, pyDictGet?, pyIndexZero,
        pyDictGetMethod, hf, pyTruthy]
    rw [h, statusMsg_empty_info]
    rfl

/-- Claim C8 (amended): whenever the fetch step returns a status, it equals
`"<name> <outcome> <finished-time-or-empty>"` trimmed of leading and trailing
whitespace (Python `str.strip`); an empty matches list yields exactly
`strip("<name> has no recent matches")`, and a most-recent match whose
`finished` is absent or null yields exactly `strip("<name> is playing now.")`. -/
theorem claim_C8_amended_witness :
    (∃ outcome info, ("x has no recent matches" : String) =
      pyStrip (" x" ++ " " ++ outcome ++ " " ++ info)) ∧
    fetchPlayerStatus "a" (.jsonBody (.dict [("matches",
        .list [.dict [("finished", PyVal.none)]])])) =
      .ok (pyStrip ("a" ++ " is playing now.")) :=
  ⟨claim_C8_amended.1 " x" (.jsonBody (.dict [("matches", .list [])]))
      "x has no recent matches" rfl,
   claim_C8_amended.2.2.2 "a" [("finished", PyVal.none)] rfl⟩

/-- Claim C9: if either posting credential is missing the notification phase
performs no API interaction while the computed state is still saved; with
credentials configured, every changed status is attempted in order, whatever
the per-message outcomes (the posting function `e.api` is arbitrary and a
failed message does not stop later attempts). -/
theorem claim_C9 (players : List Player) (fs : FileState)
    (resp : Player → HttpResult) (e : Env) (st : LoopState)
    (hloop : runLoop (loadPrevious fs) resp players ⟨[], []⟩ = .ok st) :
    ((e.identifier = Option.none ∨ e.password = Option.none) →
      check_player_statuses_and_post_changes players fs resp e =
        .ok ⟨[Event.save st.current], st.posts.map (fun _ => Option.none)⟩) ∧
    (credsConfigured e = true →
      check_player_statuses_and_post_changes players fs resp e =
        .ok ⟨Event.save st.current :: st.posts.map Event.postAttempt,
             st.posts.map (make_bluesky_post e)⟩) := by
  constructor
  · intro h
    have hc : credsConfigured e = false := by
      rcases h with h | h <;> simp [credsConfigured, envTruthy, h]
    have hm : make_bluesky_post e = fun _ => Option.none :=
      funext (fun t => by simp [make_bluesky_post, hc])
    simp [check_player_statuses_and_post_changes, hloop, hc, hm]
  · intro h
    simp [check_player_statuses_and_post_changes, hloop, h]

/-- Claim C9: if either posting credential is missing the notification phase
performs no API interaction while the computed state is still saved; with
credentials configured, every changed status is attempted in order, whatever
the per-message outcomes (the posting function `e.api` is arbitrary and a
failed message does not stop later attempts). -/
theorem claim_C9_witness :
    check_player_statuses_and_post_changes [⟨"a", "u"⟩] .absent
        (fun _ => .invalidJson) ⟨Option.none, Option.some "pw", fun _ => .error "x"⟩ =
      .ok ⟨[Event.save [("a", "a returned invalid data")]],
           [Option.none]⟩ ∧
    check_player_statuses_and_post_changes [⟨"a", "u"⟩] .absent
        (fun _ => .invalidJson)
        ⟨Option.some "id", Option.some "pw", fun _ => .error "x"⟩ =
      .ok ⟨[Event.save [("a", "a returned invalid data")],
            Event.postAttempt "a returned invalid data"],
           [Option.none]⟩ :=
  ⟨(claim_C9 [⟨"a", "u"⟩] .absent (fun _ => .invalidJson)
      ⟨Option.none, Option.some "pw", fun _ => .error "x"⟩
      ⟨[("a", "a returned invalid data")], ["a returned invalid data"]⟩ rfl).1
      (Or.inl rfl),
   (claim_C9 [⟨"a", "u"⟩] .absent (fun _ => .invalidJson)
      ⟨Option.some "id", Option.some "pw", fun _ => .error "x"⟩
      ⟨[("a", "a returned invalid data")], ["a returned invalid data"]⟩ rfl).2 rfl⟩

/-- Claim C10: a most-recent match whose `finished` field is present but falsy
(the empty string, `0`, `false`, ...) is classified exactly like an absent or
null one — the test at line 82 is on truthiness, not presence — yielding the
strip of `"<name> is playing now."` with no timestamp rendered. -/
theorem claim_C10 (n : String) (v : PyVal) (h : pyTruthy v = false) :
    fetchPlayerStatus n (.jsonBody (.dict [("matches",
        .list [.dict [("finished", v)]])])) =
      .ok (pyStrip (n ++ " is playing now.")) ∧
    fetchPlayerStatus n (.jsonBody (.dict [("matches",
        .list [.dict [("finished", v)]])])) =
      fetchPlayerStatus n (.jsonBody (.dict [("matches", .list [.dict []])])) := by
  have h1 : fetchPlayerStatus n (.jsonBody (.dict [("matches",
      .list [.dict [("finished", v)]])])) =
      .ok (statusMsg n "is playing now." "") := by
    have hl : pyTruthy (PyVal.list [PyVal.dict [("finished", v)]]) = true := rfl
    simp [fetchPlayerStatus, pySubscriptStr, pyDictGet?, pyIndexZero,
      pyDictGetMethod, hl, h]
  have h2 : fetchPlayerStatus n (.jsonBody (.dict [("matches", .list [.dict []])])) =
      .ok (statusMsg n "is playing now." "") := rfl
  refine ⟨?_, by rw [h1, h2]⟩
  rw [h1, statusMsg_empty_info]
  rfl

/-- Witness for C10 at the concrete falsy value `""`. -/
theorem claim_C10_witness :
    (pyTruthy (PyVal.str "") = false) ∧
    (fetchPlayerStatus "a" (.jsonBody (.dict [("matches",
        .list [.dict [("finished", PyVal.str "")]])])) =
      .ok (pyStrip ("a" ++ " is playing now.")) ∧
    fetchPlayerStatus "a" (.jsonBody (.dict [("matches",
        .list [.dict [("finished", PyVal.str "")]])])) =
      fetchPlayerStatus "a" (.jsonBody (.dict [("matches", .list [.dict []])]))) :=
  ⟨rfl, claim_C10 "a" (PyVal.str "") rfl⟩

end Aoebskybot

